import Mathlib

/-!
Verification development for the agent-kit orchestration engine.

The definitions below are a shallow embedding of the TypeScript sources:
  - src/agent/agent.ts          (current variant: tool-forcing loop with
                                 attempt_completion; requestApproval,
                                 handleToolCall, executeToolCalls, run,
                                 accumulateUsage)
  - src/core/policy.ts          (requiresApproval, SAFE_TOOLS)
  - src/hooks/useSession.ts     (useContextManager: pruneHistory,
                                 buildCompactionSummary, summarizeMessage)
  - src/hooks/useApproval.ts    (handleApprovalNeeded with session caches)
  - src/client/* chatCompletion (the shared retry/backoff loop)

Modelling conventions:
  - JS runtime values produced by JSON.parse are modelled by the inductive
    `Json`; JS numbers appear as integers (no claim depends on fractional
    values).  JSON.parse itself is a host primitive, so it enters the model
    as an abstract environment function returning the parsed value or the
    thrown error text.
  - Promises settle deterministically: `Promise.all` over a mapped array
    keeps the array order of its results, so the concurrent per-call
    execution of one iteration is modelled as `List.map` of a per-call
    function whose outcome (handler result, thrown error, approval
    decision) is supplied by the environment.
  - JS float comparisons `x < w * 0.8` / `x > w * 0.9` on integer token
    counts are modelled by the exact rational comparisons
    `5 * x < 4 * w` / `10 * x > 9 * w`.
  - JS string `length`/`slice` count UTF-16 code units; the model counts
    characters.  Concrete inputs in the theorems are ASCII, where the two
    coincide.
-/

namespace AgentKit

/-- JS values as produced by JSON.parse / consumed by JSON.stringify. -/
inductive Json where
  | null : Json
  | bool (b : Bool) : Json
  | num (n : Int) : Json
  | str (s : String) : Json
  | arr (elems : List Json) : Json
  | obj (fields : List (String × Json)) : Json

/-- Escape a string for JSON output (quote and backslash; the concrete
strings appearing in the theorems contain no control characters). -/
def escapeJson (s : String) : String :=
  s.foldl
    (fun acc c =>
      if c = Char.ofNat 34 then acc ++ String.singleton (Char.ofNat 92) ++ String.singleton (Char.ofNat 34)
      else if c = Char.ofNat 92 then acc ++ String.singleton (Char.ofNat 92) ++ String.singleton (Char.ofNat 92)
      else acc.push c)
    ""

mutual

/-- JSON.stringify on the modelled values. -/
def Json.stringify : Json → String
  | .null => "null"
  | .bool b => if b then "true" else "false"
  | .num n => toString n
  | .str s => String.singleton (Char.ofNat 34) ++ escapeJson s ++ String.singleton (Char.ofNat 34)
  | .arr xs => "[" ++ Json.stringifyList xs ++ "]"
  | .obj fs => "\x7b" ++ Json.stringifyFields fs ++ "\x7d"

def Json.stringifyList : List Json → String
  | [] => ""
  | [x] => Json.stringify x
  | x :: y :: rest => Json.stringify x ++ "," ++ Json.stringifyList (y :: rest)

def Json.stringifyFields : List (String × Json) → String
  | [] => ""
  | [(k, v)] =>
      String.singleton (Char.ofNat 34) ++ escapeJson k ++ String.singleton (Char.ofNat 34)
        ++ ":" ++ Json.stringify v
  | (k, v) :: f :: rest =>
      String.singleton (Char.ofNat 34) ++ escapeJson k ++ String.singleton (Char.ofNat 34)
        ++ ":" ++ Json.stringify v ++ "," ++ Json.stringifyFields (f :: rest)

end

/-- ToolCall from src/client types: `{id, type: "function", function: {name,
arguments}}`, with the nested `function` record flattened. -/
structure ToolCall where
  id : String
  type : String
  name : String
  arguments : String
deriving DecidableEq

/-- ChatMessage from src/client types.  An assistant message with the
`tool_calls` field absent is modelled with the empty list. -/
inductive ChatMessage where
  | system (content : String) : ChatMessage
  | user (content : String) : ChatMessage
  | assistant (content : Option String) (tool_calls : List ToolCall) : ChatMessage
  | tool (tool_call_id : String) (content : String) : ChatMessage
deriving DecidableEq

def ChatMessage.toolCalls : ChatMessage → List ToolCall
  | .assistant _ tcs => tcs
  | _ => []

def ChatMessage.contentText : ChatMessage → Option String
  | .system c => some c
  | .user c => some c
  | .assistant c _ => c
  | .tool _ c => some c

def ChatMessage.isSystem : ChatMessage → Bool
  | .system _ => true
  | _ => false

/-- ApprovalDecision from src/client types. -/
inductive ApprovalDecision where
  | allow_once : ApprovalDecision
  | allow_always : ApprovalDecision
  | deny_once : ApprovalDecision
  | deny_always : ApprovalDecision
deriving DecidableEq

/-- ApprovalRequest from src/client types. -/
structure ApprovalRequest where
  toolCallId : String
  name : String
  args : Json

/-- src/core/policy.ts: the fixed safe set. -/
def SAFE_TOOLS : List String := ["read", "glob", "grep", "todo_read"]

/-- src/core/policy.ts: `requiresApproval = !SAFE_TOOLS.has(toolName)`. -/
def requiresApproval (toolName : String) : Bool :=
  !(SAFE_TOOLS.contains toolName)

/-- The environment an Agent instance closes over: the JSON primitive, the
registered tool handlers (name → handler, built from the tool entries), the
optional approval handler, and the run configuration.  A handler maps the
parsed arguments to its returned value or to the text of a thrown error. -/
structure AgentEnv where
  parseJson : String → Except String Json
  toolHandlers : String → Option (Json → Except String Json)
  onApprovalNeeded : Option (ApprovalRequest → ApprovalDecision)
  systemPrompt : String
  conversationHistory : List ChatMessage
  maxIterations : Nat

inductive ApprovalOutcome where
  | proceed : ApprovalOutcome
  | denied : ApprovalOutcome
deriving DecidableEq

/-- Agent.requestApproval (src/agent/agent.ts, policy-based variant):
safe-listed tools and a missing handler short-circuit to proceed; otherwise
the approval handler is consulted and allow_once/allow_always proceed.
The Bool records whether the external handler was consulted
(instrumentation for the theorems; the source returns only the outcome). -/
def requestApproval (env : AgentEnv) (toolCallId name : String) (args : Json) :
    ApprovalOutcome × Bool :=
  if !(requiresApproval name) then (.proceed, false)
  else
    match env.onApprovalNeeded with
    | none => (.proceed, false)
    | some handler =>
        let decision := handler ⟨toolCallId, name, args⟩
        (if decision = .allow_once ∨ decision = .allow_always then .proceed else .denied, true)

/-- Agent.handleToolCall: look up the handler (unknown name → error object),
parse the raw arguments (throw → error object), invoke the handler (throw →
error object), else wrap as a result object.  The Bool records whether the
handler was invoked (instrumentation; the source returns only the
JSON-encoded content, which here stays at the `Json` level and is
stringified by the caller). -/
def handleToolCall (env : AgentEnv) (name : String) (rawArgs : String) :
    Json × Bool :=
  match env.toolHandlers name with
  | none => (Json.obj [("error", Json.str ("Unknown tool: " ++ name))], false)
  | some handler =>
      match env.parseJson rawArgs with
      | .error e => (Json.obj [("error", Json.str e)], false)
      | .ok args =>
          match handler args with
          | .error e => (Json.obj [("error", Json.str e)], true)
          | .ok result => (Json.obj [("result", result)], true)

/-- `try JSON.parse catch -> keep the raw string` (the parsedArgs fallback
in executeToolCalls). -/
def parseArgsOrRaw (env : AgentEnv) (rawArgs : String) : Json :=
  match env.parseJson rawArgs with
  | .ok v => v
  | .error _ => Json.str rawArgs

/-- A single quote character, for building the denial and TypeError
message texts. -/
def sq : String := String.singleton (Char.ofNat 39)

/-- The text of the TypeError thrown by a property access on null. -/
def nullAccessError : String :=
  "TypeError: Cannot read properties of null (reading " ++ sq ++ "result" ++ sq ++ ")"

/-- `(parsedArgs as {result: string}).result ?? "Done."`: a JS property
access followed by null-coalescing.  When the parsed arguments are JSON
null, the property access itself throws a TypeError (the cast has no
runtime effect); on an object the `result` field is read, with an absent or
null field coalesced to "Done."; every other value (string fallback from a
parse failure, array, number, boolean) has no `result` property and also
yields "Done.". -/
def completionResultOf (env : AgentEnv) (rawArgs : String) : Except String Json :=
  match parseArgsOrRaw env rawArgs with
  | Json.null => .error nullAccessError
  | Json.obj fields =>
      match fields.lookup "result" with
      | some Json.null => .ok (Json.str "Done.")
      | some v => .ok v
      | none => .ok (Json.str "Done.")
  | _ => .ok (Json.str "Done.")

/-- What one tool call settles to inside Promise.all.  `content` is the
value whose JSON encoding becomes the tool-result message content;
`consultedApproval` and `invokedHandler` record the externally observable
interactions (instrumentation); `completionSignal` is the value assigned to
the enclosing completionResult variable by an attempt_completion call. -/
structure CallOutcome where
  tool_call_id : String
  content : Json
  consultedApproval : Bool
  invokedHandler : Bool
  completionSignal : Option Json

/-- The per-call async body of Agent.executeToolCalls: non-function calls
settle to "\x7b\x7d"; attempt_completion is intercepted before the approval
gate and before handler lookup — but its `.result` access throws when the
parsed arguments are JSON null, which rejects the call's promise (`.error`);
otherwise the approval gate runs, a denial settles to a denial error object,
and an approved call runs handleToolCall.  Only the attempt_completion
TypeError can reject: every other path is caught and settles. -/
def execOneCall (env : AgentEnv) (c : ToolCall) : Except String CallOutcome :=
  if c.type ≠ "function" then
    .ok ⟨c.id, Json.obj [], false, false, none⟩
  else
    let parsedArgs := parseArgsOrRaw env c.arguments
    if c.name = "attempt_completion" then
      match completionResultOf env c.arguments with
      | .error e => .error e
      | .ok v =>
          .ok ⟨c.id, Json.obj [("result", Json.str "Completion accepted.")], false, false,
            some v⟩
    else
      match requestApproval env c.id c.name parsedArgs with
      | (.denied, consulted) =>
          .ok ⟨c.id,
            Json.obj [("error",
              Json.str ("Tool " ++ sq ++ c.name ++ sq ++ " was denied by the user."))],
            consulted, false, none⟩
      | (.proceed, consulted) =>
          let r := handleToolCall env c.name c.arguments
          .ok ⟨c.id, r.1, consulted, r.2, none⟩

structure ExecResult where
  messages : List ChatMessage
  completionResult : Option Json

/-- Promise.all over the mapped call bodies: if every body settles, the
results are collected in call order; if a body throws (the
attempt_completion TypeError, thrown synchronously during the map, hence
first in call order), Promise.all rejects with that error. -/
def settleAll (env : AgentEnv) : List ToolCall → Except String (List CallOutcome)
  | [] => .ok []
  | c :: rest =>
      match execOneCall env c with
      | .error e => .error e
      | .ok o =>
          match settleAll env rest with
          | .error e => .error e
          | .ok os => .ok (o :: os)

/-- Agent.executeToolCalls: push the assistant message, settle every tool
call of that message (Promise.all keeps call order), then push one
tool-result message per call in that order.  completionResult is the last
assignment made by an attempt_completion call (assignments happen in call
order during the synchronous prefix of each mapped body).  When Promise.all
rejects, the `for` loop that pushes tool-result messages never runs and the
exception propagates out of the awaiting caller (`.error`): zero
tool-result messages are recorded. -/
def executeToolCalls (env : AgentEnv) (messages : List ChatMessage)
    (choiceMessage : ChatMessage) : Except String ExecResult :=
  match settleAll env choiceMessage.toolCalls with
  | .error e => .error e
  | .ok outcomes =>
      .ok { messages :=
              messages ++ [choiceMessage]
                ++ outcomes.map (fun o => ChatMessage.tool o.tool_call_id o.content.stringify),
            completionResult := (outcomes.filterMap (fun o => o.completionSignal)).getLast? }

/-- Raw usage block of a ChatResponse (`usage` on the wire). -/
structure RawUsage where
  prompt_tokens : Nat
  completion_tokens : Nat
  total_tokens : Nat
deriving DecidableEq

/-- TokenUsage from src/client types. -/
structure TokenUsage where
  promptTokens : Nat
  completionTokens : Nat
  totalTokens : Nat
deriving DecidableEq

/-- Agent.accumulateUsage: promptTokens is overwritten with the latest
response value; completionTokens and totalTokens are added. -/
def accumulateUsage (acc : TokenUsage) (raw : Option RawUsage) : TokenUsage :=
  match raw with
  | none => acc
  | some r =>
      { promptTokens := r.prompt_tokens,
        completionTokens := acc.completionTokens + r.completion_tokens,
        totalTokens := acc.totalTokens + r.total_tokens }

/-- ChatChoice, restricted to the fields the loop reads (the source also
carries an index). -/
structure ChatChoice where
  message : ChatMessage
  finish_reason : String

/-- ChatResponse, restricted to the fields the loop reads (the source also
carries id and model). -/
structure ChatResponse where
  choices : List ChatChoice
  usage : Option RawUsage

/-- AgentResult.  The source types `answer` as a string; an
attempt_completion call makes the runtime value the parsed `result`
argument, so the model keeps it at the `Json` level, with the plain-text
answers wrapped in `Json.str`. -/
structure AgentResult where
  answer : Json
  iterations : Nat
  usage : TokenUsage

/-- Messages seeded by Agent.run: system prompt, prior history, user
prompt. -/
def seedMessages (env : AgentEnv) (prompt : String) : List ChatMessage :=
  ChatMessage.system env.systemPrompt :: (env.conversationHistory ++ [ChatMessage.user prompt])

/-- The while loop of Agent.run (current variant): every iteration consumes
one scripted completion response; an empty choices list and a text-only
response terminate; otherwise the tool calls run and an attempt_completion
signal terminates with its result.  `Except.error` models an exception
escaping run: either the scripted aiClient is exhausted while the loop
still wants a completion (the client throwing), or a rejected
executeToolCalls (the attempt_completion TypeError) propagates through the
await.  The surviving message list is returned alongside the result (it is
the object state `this.messages`). -/
def runLoop (env : AgentEnv) :
    List ChatResponse → List ChatMessage → TokenUsage → Nat →
      Except String (AgentResult × List ChatMessage)
  | completions, messages, usage, iterations =>
    if iterations < env.maxIterations then
      match completions with
      | [] => .error "scripted client exhausted"
      | resp :: rest =>
          let usage1 := accumulateUsage usage resp.usage
          match resp.choices.head? with
          | none =>
              .ok ({ answer := Json.str "Error: API returned no response",
                     iterations := iterations + 1, usage := usage1 }, messages)
          | some choice =>
              if choice.message.toolCalls.isEmpty then
                .ok ({ answer := Json.str (choice.message.contentText.getD "No response"),
                       iterations := iterations + 1, usage := usage1 }, messages)
              else
                match executeToolCalls env messages choice.message with
                | .error e => .error e
                | .ok r =>
                    match r.completionResult with
                    | some result =>
                        .ok ({ answer := result, iterations := iterations + 1,
                               usage := usage1 }, r.messages)
                    | none => runLoop env rest r.messages usage1 (iterations + 1)
    else
      .ok ({ answer := Json.str "Error: Max iterations reached",
             iterations := iterations, usage := usage }, messages)

/-- Agent.run: seed the message list and run the loop from iteration 0 with
zeroed usage. -/
def agentRun (env : AgentEnv) (prompt : String) (completions : List ChatResponse) :
    Except String (AgentResult × List ChatMessage) :=
  runLoop env completions (seedMessages env prompt) ⟨0, 0, 0⟩ 0

/-! ### Context budget manager (useContextManager in src/hooks/useSession.ts) -/

/-- `(content ?? "").replace(\s+ -> " ").trim()`. -/
def normalizeWs (s : String) : String :=
  String.intercalate " " ((s.split Char.isWhitespace).filter (fun p => p ≠ ""))

/-- `s.length > maxLen ? s.slice(0, maxLen) + "..." : s`. -/
def clip (s : String) (maxLen : Nat) : String :=
  if s.length > maxLen then s.take maxLen ++ "..." else s

def roleName : ChatMessage → String
  | .system _ => "system"
  | .user _ => "user"
  | .assistant _ _ => "assistant"
  | .tool _ _ => "tool"

/-- summarizeMessage: tool results keep up to 200 raw characters; other
roles are whitespace-normalized and clipped to 300 (user) or 400 (other)
characters, with "(empty)" for an empty digest. -/
def summarizeMessage (m : ChatMessage) : String :=
  match m with
  | .tool id content => "- tool(" ++ id ++ "): " ++ clip content 200
  | _ =>
      let content := normalizeWs (m.contentText.getD "")
      let maxLen : Nat := match m with | .user _ => 300 | _ => 400
      let clipped := clip content maxLen
      "- " ++ roleName m ++ ": " ++ (if clipped = "" then "(empty)" else clipped)

/-- buildCompactionSummary: none for an empty drop list, else one synthetic
system message with a header line and one digest line per dropped message. -/
def buildCompactionSummary (messages : List ChatMessage) : Option ChatMessage :=
  if messages.isEmpty then none
  else
    some (ChatMessage.system (String.intercalate "\n"
      ("Context compaction summary of earlier conversation (preserve these facts and decisions):"
        :: messages.map summarizeMessage)))

/-- The keep count of pruneHistory as the source computes it:
`latestPrompt > contextWindow * 0.9 ? 12 : 20`, as the exact rational
comparison. -/
def keepCountOf (latestPrompt contextWindow : Nat) : Nat :=
  if 10 * latestPrompt > 9 * contextWindow then 12 else 20

/-- useContextManager.pruneHistory.  The float comparisons
`latestPrompt < contextWindow * 0.8` and `latestPrompt > contextWindow * 0.9`
are modelled as the exact rational comparisons `5*lp < 4*w` and
`10*lp > 9*w`. -/
def pruneHistory (latestPrompt contextWindow : Nat) (history : List ChatMessage) :
    List ChatMessage :=
  if 5 * latestPrompt < 4 * contextWindow then history
  else
    let systemMessages := history.filter (fun m => m.isSystem)
    let nonSystem := history.filter (fun m => !m.isSystem)
    let keepCount := keepCountOf latestPrompt contextWindow
    let kept := nonSystem.drop (nonSystem.length - keepCount)
    let removed := nonSystem.take (nonSystem.length - kept.length)
    if removed.length = 0 then history
    else
      match buildCompactionSummary removed with
      | some summary => systemMessages ++ [summary] ++ kept
      | none => systemMessages ++ kept

/-- The keep count as claim C3 words it (N = 12 when usage is at or above
90% of the window).  Spec-side definition, kept for the refinement
comparison with `keepCountOf`, which the source computes with a strict
comparison. -/
def specKeepCount (latestPrompt contextWindow : Nat) : Nat :=
  if 10 * latestPrompt ≥ 9 * contextWindow then 12 else 20

/-! ### Approval cache (useApproval in src/hooks/useApproval.ts) -/

/-- The two session-scoped caches of useApproval. -/
structure ApprovalState where
  sessionAllowed : List String
  sessionDenied : List String
deriving DecidableEq

/-- useApproval.handleApprovalNeeded for one request: a cached name resolves
immediately (allow wins over deny, checked first); otherwise the external
decision source resolves the request and an "always" decision is added to
the matching cache.  `ext` is the decision the external source returns for
this request; the Bool records whether that source was consulted
(instrumentation). -/
def handleApprovalNeeded (st : ApprovalState) (name : String) (ext : ApprovalDecision) :
    ApprovalDecision × ApprovalState × Bool :=
  if st.sessionAllowed.contains name then (.allow_always, st, false)
  else if st.sessionDenied.contains name then (.deny_always, st, false)
  else
    let st1 :=
      match ext with
      | .allow_always => { st with sessionAllowed := name :: st.sessionAllowed }
      | .deny_always => { st with sessionDenied := name :: st.sessionDenied }
      | _ => st
    (ext, st1, true)

/-- A run's approval requests processed in queue order (the source
serializes them through a promise chain).  Each request is its tool name
paired with the decision the external source would return; each output is
(name, decision delivered, external source consulted). -/
def processApprovals (st : ApprovalState) :
    List (String × ApprovalDecision) → ApprovalState × List (String × ApprovalDecision × Bool)
  | [] => (st, [])
  | (name, ext) :: rest =>
      let r := handleApprovalNeeded st name ext
      let rec' := processApprovals r.2.1 rest
      (rec'.1, (name, r.1, r.2.2) :: rec'.2)

/-! ### Provider retry loop (chatCompletion in the client adapters) -/

/-- One onRetry observer invocation: attempt count, retry budget, error
text. -/
structure RetryEvent where
  attempt : Nat
  maxRetries : Nat
  error : String
deriving DecidableEq

/-- The retry loop shared by the provider adapters
(AIClientCopilot.chatCompletion / AIClientClaude.chatCompletion):
`for (attempt = 0; attempt < maxRetries; attempt++)` where the body either
returns a response or throws; on a throw the final attempt rethrows, any
earlier attempt invokes onRetry(attempt+1, maxRetries, error) and sleeps
1000 * 2^attempt ms before continuing.  `outcome k` is what the k-th
attempt's body does (ok response or thrown error text); the result carries
the onRetry invocations and the sleep delays in order.  The abort-signal
paths, which only rethrow, are not modelled (no claim here concerns
cancellation). -/
def chatCompletionRetry {R : Type} (maxRetries : Nat) (outcome : Nat → Except String R)
    (attempt : Nat) : Except String R × List RetryEvent × List Nat :=
  if attempt < maxRetries then
    match outcome attempt with
    | .ok v => (.ok v, [], [])
    | .error e =>
        if attempt = maxRetries - 1 then (.error e, [], [])
        else
          let r := chatCompletionRetry maxRetries outcome (attempt + 1)
          (r.1, ⟨attempt + 1, maxRetries, e⟩ :: r.2.1, (1000 * 2 ^ attempt) :: r.2.2)
  else (.error "Failed to get chat completion after max retries", [], [])
termination_by maxRetries - attempt
decreasing_by omega

/-! ### Theorems -/

/-- C9: in the usage accumulated by a run, promptTokens is overwritten by
each response (so it ends as the most recent completion's prompt token
count) while completionTokens and totalTokens are cumulative sums; after two
completions promptTokens + completionTokens can differ from totalTokens. -/
theorem usage_prompt_overwritten_rest_summed (init : TokenUsage)
    (raws : List RawUsage) (last : RawUsage) (hlast : raws.getLast? = some last) :
    (raws.map some).foldl accumulateUsage init =
      ⟨last.prompt_tokens,
       init.completionTokens + (raws.map (fun r => r.completion_tokens)).sum,
       init.totalTokens + (raws.map (fun r => r.total_tokens)).sum⟩ ∧
    (([⟨10, 5, 15⟩, ⟨20, 5, 25⟩] : List RawUsage).map some).foldl accumulateUsage ⟨0, 0, 0⟩
      = ⟨20, 10, 40⟩ ∧ 20 + 10 ≠ 40 := by
  refine ⟨?_, by decide, by decide⟩
  induction raws generalizing init with
  | nil => simp at hlast
  | cons r rest ih =>
    cases rest with
    | nil =>
      simp only [List.getLast?_singleton, Option.some.injEq] at hlast
      subst hlast
      simp [accumulateUsage]
    | cons r2 rest2 =>
      rw [List.getLast?_cons_cons] at hlast
      show ((r2 :: rest2).map some).foldl accumulateUsage (accumulateUsage init (some r)) = _
      rw [ih _ hlast]
      simp only [accumulateUsage, List.map_cons, List.sum_cons, TokenUsage.mk.injEq]
      exact ⟨trivial, by omega, by omega⟩

theorem usage_prompt_overwritten_rest_summed_witness :
    (([⟨7, 1, 8⟩, ⟨9, 2, 11⟩] : List RawUsage).map some).foldl accumulateUsage ⟨0, 0, 0⟩
      = ⟨9, 3, 19⟩ :=
  ((usage_prompt_overwritten_rest_summed ⟨0, 0, 0⟩ [⟨7, 1, 8⟩, ⟨9, 2, 11⟩] ⟨9, 2, 11⟩ rfl).1)

/-- C5: the provider retry loop defaults to 3 total attempts with 1s
doubling backoff; a call that fails twice then succeeds returns the success
and reports exactly the two retry notifications (attempt count and error
text, recorded before each sleep of 1000 and 2000 ms); failing on all
attempts rethrows the final error. -/
theorem retry_backoff_behaviour {R : Type} (outcome : Nat → Except String R)
    (e1 e2 : String) (h0 : outcome 0 = .error e1) (h1 : outcome 1 = .error e2) :
    (∀ v, outcome 2 = .ok v →
      chatCompletionRetry 3 outcome 0 = (.ok v, [⟨1, 3, e1⟩, ⟨2, 3, e2⟩], [1000, 2000])) ∧
    (∀ e3, outcome 2 = .error e3 →
      chatCompletionRetry 3 outcome 0 = (.error e3, [⟨1, 3, e1⟩, ⟨2, 3, e2⟩], [1000, 2000])) := by
  constructor <;> intro x hx <;>
    · rw [chatCompletionRetry, chatCompletionRetry, chatCompletionRetry]
      simp [h0, h1, hx]

theorem retry_backoff_behaviour_witness :
    chatCompletionRetry 3
        (fun k => if k = 0 then .error "net1" else if k = 1 then .error "net2" else .ok 7) 0
      = (.ok 7, [⟨1, 3, "net1"⟩, ⟨2, 3, "net2"⟩], [1000, 2000]) :=
  (retry_backoff_behaviour
    (fun k => if k = 0 then .error "net1" else if k = 1 then .error "net2" else .ok (7 : Nat))
    "net1" "net2" rfl rfl).1 7 rfl

/-- Helper: one approval step never removes a name from the allow cache. -/
theorem handleApprovalNeeded_preserves_allowed (st : ApprovalState) (name : String)
    (ext : ApprovalDecision) (X : String) (hX : X ∈ st.sessionAllowed) :
    X ∈ (handleApprovalNeeded st name ext).2.1.sessionAllowed := by
  unfold handleApprovalNeeded
  split
  · exact hX
  · split
    · exact hX
    · cases ext <;> simp [List.mem_cons, hX]

/-- C8: an allow_always decision for a tool puts its name into the session
allow cache, and from then on every request for that name resolves to
allow_always without consulting the external decision source; symmetrically
a deny-cached name resolves to deny_always without consultation. -/
theorem always_decisions_cached (st : ApprovalState) (X : String) :
    (X ∉ st.sessionAllowed → X ∉ st.sessionDenied →
      X ∈ (handleApprovalNeeded st X .allow_always).2.1.sessionAllowed) ∧
    (∀ ext, X ∈ st.sessionAllowed →
      handleApprovalNeeded st X ext = (.allow_always, st, false)) ∧
    (∀ reqs, X ∈ st.sessionAllowed →
      ∀ out ∈ (processApprovals st reqs).2, out.1 = X →
        out.2.1 = .allow_always ∧ out.2.2 = false) ∧
    (∀ ext, X ∈ st.sessionDenied → X ∉ st.sessionAllowed →
      handleApprovalNeeded st X ext = (.deny_always, st, false)) := by
  refine ⟨?_, ?_, ?_, ?_⟩
  · intro hA hD
    simp [handleApprovalNeeded, hA, hD, List.mem_cons]
  · intro ext hX
    simp [handleApprovalNeeded, hX]
  · intro reqs
    induction reqs generalizing st with
    | nil => intro _ out hout; simp [processApprovals] at hout
    | cons req rest ih =>
      intro hX out hout hname
      obtain ⟨name, ext⟩ := req
      simp only [processApprovals, List.mem_cons] at hout
      rcases hout with hout | hout
      · subst hout
        simp only at hname
        subst hname
        simp [handleApprovalNeeded, hX]
      · exact ih _ (handleApprovalNeeded_preserves_allowed st name ext X hX) out hout hname
  · intro ext hD hA
    simp [handleApprovalNeeded, hD, hA]

theorem always_decisions_cached_witness :
    "bash" ∈ (handleApprovalNeeded ⟨[], []⟩ "bash" .allow_always).2.1.sessionAllowed ∧
    handleApprovalNeeded ⟨["bash"], []⟩ "bash" .deny_once = (.allow_always, ⟨["bash"], []⟩, false) ∧
    (∀ out ∈ (processApprovals ⟨["bash"], []⟩
        [("bash", .deny_once), ("write", .allow_once), ("bash", .deny_always)]).2,
      out.1 = "bash" → out.2.1 = .allow_always ∧ out.2.2 = false) ∧
    handleApprovalNeeded ⟨[], ["rm"]⟩ "rm" .allow_once = (.deny_always, ⟨[], ["rm"]⟩, false) := by
  refine ⟨(always_decisions_cached ⟨[], []⟩ "bash").1 (by simp) (by simp), ?_, ?_, ?_⟩
  · exact (always_decisions_cached ⟨["bash"], []⟩ "bash").2.1 .deny_once (by simp)
  · exact (always_decisions_cached ⟨["bash"], []⟩ "bash").2.2.1
      [("bash", .deny_once), ("write", .allow_once), ("bash", .deny_always)] (by simp)
  · exact (always_decisions_cached ⟨[], ["rm"]⟩ "rm").2.2.2 .allow_once (by simp) (by simp)

/-- A concrete environment whose approval handler always denies, used as the
explicit input of the C2 counterexample. -/
def envDeny : AgentEnv :=
  { parseJson := fun _ => .error "SyntaxError: Unexpected token",
    toolHandlers := fun _ => none,
    onApprovalNeeded := some (fun _ => .deny_once),
    systemPrompt := "sys",
    conversationHistory := [],
    maxIterations := 30 }

/-- C2 counterexample: the claimed safe set includes the fetch tool, but
src/core/policy.ts gates web_fetch, so a web_fetch call does invoke the
approval source when one is configured. -/
theorem safe_set_excludes_fetch_counterexample :
    requiresApproval "web_fetch" = true ∧
    (requestApproval envDeny "call-1" "web_fetch" Json.null).2 = true ∧
    execOneCall envDeny ⟨"call-1", "function", "web_fetch", "\x7b\x7d"⟩
      = .ok ⟨"call-1",
          Json.obj [("error",
            Json.str ("Tool " ++ sq ++ "web_fetch" ++ sq ++ " was denied by the user."))],
          true, false, none⟩ := by
  refine ⟨by decide, rfl, rfl⟩

/-- C2 (amended): for the safe set the code actually fixes —
read, glob, grep, todo_read — the approval source is never consulted and the
call proceeds directly to dispatch. -/
theorem safe_tools_skip_approval (env : AgentEnv) :
    (∀ toolCallId name args, name ∈ SAFE_TOOLS →
      requestApproval env toolCallId name args = (.proceed, false)) ∧
    (∀ c : ToolCall, c.type = "function" → c.name ∈ SAFE_TOOLS →
      execOneCall env c
        = .ok ⟨c.id, (handleToolCall env c.name c.arguments).1, false,
            (handleToolCall env c.name c.arguments).2, none⟩) := by
  have key : ∀ name, name ∈ SAFE_TOOLS → requiresApproval name = false := by
    intro name hname
    simp only [SAFE_TOOLS, List.mem_cons, List.not_mem_nil, or_false] at hname
    rcases hname with h | h | h | h <;> subst h <;> decide
  constructor
  · intro toolCallId name args hname
    simp [requestApproval, key name hname]
  · intro c hty hname
    have hnac : c.name ≠ "attempt_completion" := by
      intro h
      have := key c.name hname
      rw [h] at this
      simp [requiresApproval, SAFE_TOOLS] at this
    have hreq : requestApproval env c.id c.name (parseArgsOrRaw env c.arguments)
        = (.proceed, false) := by
      simp [requestApproval, key c.name hname]
    simp [execOneCall, hty, hnac, hreq]

/-- A concrete environment with two registered handlers and a small JSON
parse table, used as the explicit input of several witnesses. -/
def envTools : AgentEnv :=
  { parseJson := fun s =>
      if s = "\x7b\x7d" then .ok (Json.obj [])
      else if s = "\x7b\"x\":1\x7d" then .ok (Json.obj [("x", Json.num 1)])
      else if s = "\x7b\"result\":\"All done\"\x7d" then
        .ok (Json.obj [("result", Json.str "All done")])
      else .error ("SyntaxError: Unexpected token in " ++ s),
    toolHandlers := fun name =>
      if name = "echo" then some (fun _ => .ok (Json.str "ok"))
      else if name = "boom" then some (fun _ => .error "Error: boom failed")
      else none,
    onApprovalNeeded := none,
    systemPrompt := "sys",
    conversationHistory := [],
    maxIterations := 30 }

/-- The tool_call_id of a tool-result message, none for other roles. -/
def toolIdOf : ChatMessage → Option String
  | .tool id _ => some id
  | _ => none

/-- Helper: every settled call carries the id of its originating call. -/
theorem execOneCall_ok_id (env : AgentEnv) (c : ToolCall) (o : CallOutcome)
    (h : execOneCall env c = .ok o) : o.tool_call_id = c.id := by
  unfold execOneCall at h
  split at h
  · injection h with h2
    rw [← h2]
  · split at h
    · split at h
      · exact Except.noConfusion h
      · injection h with h2
        rw [← h2]
    · dsimp only at h
      split at h
      · injection h with h2
        rw [← h2]
      · injection h with h2
        rw [← h2]

theorem safe_tools_skip_approval_witness :
    requestApproval envDeny "c1" "read" Json.null = (.proceed, false) ∧
    execOneCall envDeny ⟨"c1", "function", "glob", "\x7b\x7d"⟩
      = .ok ⟨"c1", (handleToolCall envDeny "glob" "\x7b\x7d").1, false,
          (handleToolCall envDeny "glob" "\x7b\x7d").2, none⟩ :=
  ⟨(safe_tools_skip_approval envDeny).1 "c1" "read" Json.null (by decide),
   (safe_tools_skip_approval envDeny).2 ⟨"c1", "function", "glob", "\x7b\x7d"⟩ rfl
      (by decide)⟩

/-- C7: tool dispatch is total and recovers per call: an unknown tool name,
a malformed argument payload and a handler throw each settle as an error
object, a successful handler as a result object; the content is always one
of the two shapes, and no such outcome signals run termination (only an
attempt_completion call sets the completion signal). -/
theorem dispatch_total_and_recovering (env : AgentEnv) (name rawArgs : String) :
    (env.toolHandlers name = none →
      handleToolCall env name rawArgs
        = (Json.obj [("error", Json.str ("Unknown tool: " ++ name))], false)) ∧
    (∀ f e, env.toolHandlers name = some f → env.parseJson rawArgs = .error e →
      handleToolCall env name rawArgs = (Json.obj [("error", Json.str e)], false)) ∧
    (∀ f args e, env.toolHandlers name = some f → env.parseJson rawArgs = .ok args →
      f args = .error e →
      handleToolCall env name rawArgs = (Json.obj [("error", Json.str e)], true)) ∧
    (∀ f args v, env.toolHandlers name = some f → env.parseJson rawArgs = .ok args →
      f args = .ok v →
      handleToolCall env name rawArgs = (Json.obj [("result", v)], true)) ∧
    ((∃ e, (handleToolCall env name rawArgs).1 = Json.obj [("error", Json.str e)]) ∨
      (∃ v, (handleToolCall env name rawArgs).1 = Json.obj [("result", v)])) ∧
    (∀ c : ToolCall, c.name ≠ "attempt_completion" →
      ∃ o, execOneCall env c = .ok o ∧ o.completionSignal = none) := by
  refine ⟨?_, ?_, ?_, ?_, ?_, ?_⟩
  · intro h0; simp [handleToolCall, h0]
  · intro f e hf hp; simp [handleToolCall, hf, hp]
  · intro f args e hf hp hr; simp [handleToolCall, hf, hp, hr]
  · intro f args v hf hp hr; simp [handleToolCall, hf, hp, hr]
  · cases henv : env.toolHandlers name with
    | none => exact .inl ⟨"Unknown tool: " ++ name, by simp [handleToolCall, henv]⟩
    | some f =>
      cases hp : env.parseJson rawArgs with
      | error e => exact .inl ⟨e, by simp [handleToolCall, henv, hp]⟩
      | ok args =>
        cases hr : f args with
        | error e => exact .inl ⟨e, by simp [handleToolCall, henv, hp, hr]⟩
        | ok v => exact .inr ⟨v, by simp [handleToolCall, henv, hp, hr]⟩
  · intro c hc
    by_cases hty : c.type ≠ "function"
    · exact ⟨⟨c.id, Json.obj [], false, false, none⟩, by simp [execOneCall, hty], rfl⟩
    · cases hreq : requestApproval env c.id c.name (parseArgsOrRaw env c.arguments) with
      | mk oo consulted =>
        cases oo
        · exact ⟨⟨c.id, (handleToolCall env c.name c.arguments).1, consulted,
              (handleToolCall env c.name c.arguments).2, none⟩,
            by simp [execOneCall, hty, hc, hreq], rfl⟩
        · exact ⟨⟨c.id,
              Json.obj [("error",
                Json.str ("Tool " ++ sq ++ c.name ++ sq ++ " was denied by the user."))],
              consulted, false, none⟩,
            by simp [execOneCall, hty, hc, hreq], rfl⟩

theorem dispatch_total_and_recovering_witness :
    handleToolCall envTools "missing" "\x7b\x7d"
      = (Json.obj [("error", Json.str "Unknown tool: missing")], false) ∧
    handleToolCall envTools "echo" "notjson"
      = (Json.obj [("error", Json.str "SyntaxError: Unexpected token in notjson")], false) ∧
    handleToolCall envTools "boom" "\x7b\x7d"
      = (Json.obj [("error", Json.str "Error: boom failed")], true) ∧
    handleToolCall envTools "echo" "\x7b\x7d" = (Json.obj [("result", Json.str "ok")], true) ∧
    (∃ o, execOneCall envTools ⟨"c1", "function", "echo", "\x7b\x7d"⟩ = .ok o ∧
      o.completionSignal = none) :=
  ⟨(dispatch_total_and_recovering envTools "missing" "\x7b\x7d").1 rfl,
   (dispatch_total_and_recovering envTools "echo" "notjson").2.1 _ _ rfl rfl,
   (dispatch_total_and_recovering envTools "boom" "\x7b\x7d").2.2.1 _ (Json.obj []) _ rfl rfl rfl,
   (dispatch_total_and_recovering envTools "echo" "\x7b\x7d").2.2.2.1 _ (Json.obj []) _ rfl rfl rfl,
   (dispatch_total_and_recovering envTools "echo" "\x7b\x7d").2.2.2.2.2
     ⟨"c1", "function", "echo", "\x7b\x7d"⟩ (by decide)⟩

/-- Helper: when Promise.all settles, the settled outcomes pair up with the
calls — matching ids in call order. -/
theorem settleAll_ok_ids (env : AgentEnv) (calls : List ToolCall)
    (outcomes : List CallOutcome) (h : settleAll env calls = .ok outcomes) :
    outcomes.map (fun o => some o.tool_call_id) = calls.map (fun c => some c.id) := by
  induction calls generalizing outcomes with
  | nil =>
    unfold settleAll at h
    injection h with h2
    rw [← h2]
    rfl
  | cons c rest ih =>
    unfold settleAll at h
    cases hc : execOneCall env c with
    | error e => rw [hc] at h; exact Except.noConfusion h
    | ok o =>
      rw [hc] at h
      cases hrest : settleAll env rest with
      | error e => rw [hrest] at h; exact Except.noConfusion h
      | ok os =>
        rw [hrest] at h
        injection h with h2
        rw [← h2]
        simp [execOneCall_ok_id env c o hc, ih os hrest]

/-- C1 (amended): whenever one iteration's Promise.all settles — every
per-call body resolves as a success, a handler error, a denial or a
non-crashing attempt_completion — the iteration appends, after the
assistant message, exactly one tool-result message per tool call, with
matching tool_call_id and in call order, for every environment of handler
results, thrown errors, parses and approval decisions.  (An
attempt_completion call whose arguments parse to JSON null instead throws,
rejecting Promise.all, and the iteration records no tool results.) -/
theorem one_result_per_call (env : AgentEnv) (msgs : List ChatMessage) (cm : ChatMessage)
    (r : ExecResult) (_hne : cm.toolCalls ≠ [])
    (hok : executeToolCalls env msgs cm = .ok r) :
    r.messages.length = msgs.length + 1 + cm.toolCalls.length ∧
    r.messages.take msgs.length = msgs ∧
    (r.messages.drop msgs.length).head? = some cm ∧
    (r.messages.drop (msgs.length + 1)).map toolIdOf
      = cm.toolCalls.map (fun c => some c.id) := by
  unfold executeToolCalls at hok
  cases hset : settleAll env cm.toolCalls with
  | error e => rw [hset] at hok; exact Except.noConfusion hok
  | ok outcomes =>
    rw [hset] at hok
    injection hok with h2
    have hids := settleAll_ok_ids env cm.toolCalls outcomes hset
    have hlen : outcomes.length = cm.toolCalls.length := by
      have := congrArg List.length hids
      simpa using this
    rw [← h2]
    refine ⟨by simp [hlen]; omega, ?_, ?_, ?_⟩
    · show ((msgs ++ [cm] ++ _).take msgs.length) = msgs
      rw [List.append_assoc, List.take_left]
    · show ((msgs ++ [cm] ++ _).drop msgs.length).head? = some cm
      rw [List.append_assoc, List.drop_left]
      rfl
    · show ((msgs ++ [cm] ++ _).drop (msgs.length + 1)).map toolIdOf = _
      have hlen2 : msgs.length + 1 = (msgs ++ [cm]).length := by simp
      rw [hlen2, List.drop_left, List.map_map]
      simpa [Function.comp, toolIdOf] using hids

/-- A concrete assistant message with two tool calls, one resolving and one
unknown, for the C1 witness. -/
def cmW : ChatMessage :=
  ChatMessage.assistant (some "working")
    [⟨"a", "function", "echo", "\x7b\x7d"⟩, ⟨"b", "function", "missing", "bad"⟩]

theorem one_result_per_call_witness :
    ∃ r, executeToolCalls envTools [ChatMessage.system "sys"] cmW = .ok r ∧
      r.messages.length = 4 ∧
      (r.messages.drop 2).map toolIdOf = [some "a", some "b"] := by
  obtain ⟨r, hr⟩ : ∃ r, executeToolCalls envTools [ChatMessage.system "sys"] cmW = .ok r :=
    ⟨_, rfl⟩
  have h := one_result_per_call envTools [ChatMessage.system "sys"] cmW r (by decide) hr
  exact ⟨r, hr, h.1, h.2.2.2⟩

/-- C10 (amended): a tool call named attempt_completion whose `.result`
access does not throw (parsed arguments are not JSON null, i.e.
completionResultOf succeeds with v) is intercepted before the approval gate
and before handler lookup: its settled outcome never consults the approval
source, never invokes a handler, has content result: Completion accepted.,
and signals completion with v; a run whose response issues such a call
terminates with v as the answer, and a parsed argument object without a
`result` field defaults the answer to Done.  (Arguments parsing to JSON
null instead throw a TypeError that crashes the run with no tool-result
recorded.) -/
theorem attempt_completion_intercepted (env : AgentEnv) (c : ToolCall) (v : Json)
    (hty : c.type = "function") (hname : c.name = "attempt_completion")
    (hv : completionResultOf env c.arguments = .ok v) :
    execOneCall env c =
      .ok ⟨c.id, Json.obj [("result", Json.str "Completion accepted.")], false, false,
        some v⟩ ∧
    (∀ prompt fr u rest, 0 < env.maxIterations →
      agentRun env prompt
          ({ choices := [{ message := ChatMessage.assistant none [c], finish_reason := fr }],
             usage := u } :: rest) =
        .ok ({ answer := v, iterations := 1,
               usage := accumulateUsage ⟨0, 0, 0⟩ u },
             seedMessages env prompt
               ++ [ChatMessage.assistant none [c],
                   ChatMessage.tool c.id
                     (Json.obj [("result", Json.str "Completion accepted.")]).stringify])) ∧
    (∀ rawArgs fields, env.parseJson rawArgs = .ok (Json.obj fields) →
      fields.lookup "result" = none →
      completionResultOf env rawArgs = .ok (Json.str "Done.")) := by
  have hexec : execOneCall env c =
      .ok ⟨c.id, Json.obj [("result", Json.str "Completion accepted.")], false, false,
        some v⟩ := by
    unfold execOneCall
    rw [if_neg (by simp [hty]), if_pos hname, hv]
  refine ⟨hexec, ?_, ?_⟩
  · intro prompt fr u rest hmax
    unfold agentRun runLoop
    rw [if_pos hmax]
    simp [executeToolCalls, settleAll, hexec, List.append_assoc, ChatMessage.toolCalls]
  · intro rawArgs fields hp hlook
    simp [completionResultOf, parseArgsOrRaw, hp, hlook]

/-- A one-choice scripted response, for stating witnesses compactly. -/
def respOf (m : ChatMessage) (fr : String) (u : Option RawUsage) : ChatResponse :=
  { choices := [{ message := m, finish_reason := fr }], usage := u }

/-- A concrete attempt_completion call whose arguments parse in envTools. -/
def callDone : ToolCall :=
  ⟨"c9", "function", "attempt_completion", "\x7b\"result\":\"All done\"\x7d"⟩

theorem attempt_completion_intercepted_witness :
    agentRun envTools "do it"
        [respOf (ChatMessage.assistant none [callDone]) "tool_calls" none] =
      .ok ({ answer := Json.str "All done", iterations := 1, usage := ⟨0, 0, 0⟩ },
           [ChatMessage.system "sys", ChatMessage.user "do it",
            ChatMessage.assistant none [callDone],
            ChatMessage.tool "c9"
              (Json.obj [("result", Json.str "Completion accepted.")]).stringify]) :=
  (attempt_completion_intercepted envTools callDone (Json.str "All done") rfl rfl rfl).2.1
    "do it" "tool_calls" none [] (by decide)

/-- An environment whose parse table contains the JSON literal null — the
explicit input of the attempt_completion crash counterexamples. -/
def envNull : AgentEnv :=
  { parseJson := fun s => if s = "null" then .ok Json.null else .error ("SyntaxError: " ++ s),
    toolHandlers := fun _ => none,
    onApprovalNeeded := none,
    systemPrompt := "sys",
    conversationHistory := [],
    maxIterations := 30 }

/-- An attempt_completion call whose raw arguments are the JSON text null. -/
def callNull : ToolCall := ⟨"c0", "function", "attempt_completion", "null"⟩

/-- C10 counterexample: for arguments "null" the source accesses `.result`
on a null value, throwing a TypeError: the call body rejects, no
tool-result is recorded, and the run crashes instead of terminating with
answer Done. — the original every-attempt_completion-call claim fails at
this input. -/
theorem attempt_completion_null_counterexample :
    completionResultOf envNull "null" = .error nullAccessError ∧
    execOneCall envNull callNull = .error nullAccessError ∧
    agentRun envNull "task"
        [respOf (ChatMessage.assistant none [callNull]) "tool_calls" none]
      = .error nullAccessError :=
  ⟨rfl, rfl, rfl⟩

/-- C1 counterexample: an attempt_completion call whose arguments parse to
JSON null throws inside its mapped body, so Promise.all rejects and the
iteration appends zero tool-result messages despite a non-empty tool-call
list — the claim quantified over every per-call outcome fails at this
input. -/
theorem one_result_per_call_counterexample :
    (ChatMessage.assistant none [callNull]).toolCalls ≠ [] ∧
    executeToolCalls envNull [ChatMessage.system "sys"]
        (ChatMessage.assistant none [callNull])
      = .error nullAccessError :=
  ⟨by decide, rfl⟩

/-- C6 counterexample: the loop never looks at finish_reason "length" — a
truncated text-only response ends the run with the partial text as the
answer, appends nothing to the message list, and requests no further
completion even though another scripted response is available. -/
theorem finish_length_counterexample :
    agentRun envTools "task"
        [respOf (ChatMessage.assistant (some "partial text") []) "length" none,
         respOf (ChatMessage.assistant (some "unreached") []) "stop" none] =
      .ok ({ answer := Json.str "partial text", iterations := 1, usage := ⟨0, 0, 0⟩ },
           [ChatMessage.system "sys", ChatMessage.user "task"]) := rfl

/-- C6 (amended): a completion whose finish_reason is "length" and whose
message carries no tool calls terminates the run with the partial text as
the answer; no synthetic continue instruction is appended and no further
completion is requested (the remaining script is arbitrary and unused). -/
theorem finish_length_terminates_with_text (env : AgentEnv) (prompt : String)
    (cm : ChatMessage) (u : Option RawUsage) (rest : List ChatResponse)
    (hmax : 0 < env.maxIterations) (hnc : cm.toolCalls = []) :
    agentRun env prompt
        ({ choices := [{ message := cm, finish_reason := "length" }], usage := u } :: rest) =
      .ok ({ answer := Json.str (cm.contentText.getD "No response"), iterations := 1,
             usage := accumulateUsage ⟨0, 0, 0⟩ u }, seedMessages env prompt) := by
  unfold agentRun runLoop
  rw [if_pos hmax]
  simp [List.head?, hnc, List.isEmpty_nil]

theorem finish_length_terminates_with_text_witness :
    agentRun envTools "task2"
        [respOf (ChatMessage.assistant (some "cut off") []) "length" (some ⟨5, 6, 11⟩)] =
      .ok ({ answer := Json.str "cut off", iterations := 1, usage := ⟨5, 6, 11⟩ },
           [ChatMessage.system "sys", ChatMessage.user "task2"]) :=
  finish_length_terminates_with_text envTools "task2"
    (ChatMessage.assistant (some "cut off") []) (some ⟨5, 6, 11⟩) [] (by decide) rfl

/-- Helper: filtering a list by a predicate and by its negation partitions
its length. -/
theorem length_filter_partition {α : Type} (p : α → Bool) (l : List α) :
    (l.filter p).length + (l.filter (fun a => !p a)).length = l.length := by
  induction l with
  | nil => rfl
  | cons a t ih => by_cases hp : p a <;> simp [List.filter_cons, hp] <;> omega

/-- Helper: the synthetic digest produced for a non-empty drop list. -/
theorem buildCompactionSummary_ne_nil (l : List ChatMessage) (h : l ≠ []) :
    buildCompactionSummary l
      = some (ChatMessage.system (String.intercalate "\n"
          ("Context compaction summary of earlier conversation (preserve these facts and decisions):"
            :: l.map summarizeMessage))) := by
  unfold buildCompactionSummary
  rw [if_neg (by simpa using h)]

/-- Helper: the shape pruneHistory returns when it drops messages. -/
theorem pruneHistory_drop_shape (lp w : Nat) (h : List ChatMessage)
    (h80 : ¬ (5 * lp < 4 * w))
    (hdrop : keepCountOf lp w < (h.filter (fun m => !m.isSystem)).length) :
    pruneHistory lp w h
      = h.filter (fun m => m.isSystem)
        ++ [ChatMessage.system (String.intercalate "\n"
             ("Context compaction summary of earlier conversation (preserve these facts and decisions):"
               :: ((h.filter (fun m => !m.isSystem)).take
                     ((h.filter (fun m => !m.isSystem)).length - keepCountOf lp w)).map
                    summarizeMessage))]
        ++ (h.filter (fun m => !m.isSystem)).drop
             ((h.filter (fun m => !m.isSystem)).length - keepCountOf lp w) := by
  set ns := h.filter (fun m => !m.isSystem) with hns
  set ks := keepCountOf lp w with hks
  unfold pruneHistory
  rw [if_neg h80]
  dsimp only
  rw [← hks, ← hns, List.length_drop]
  have harith : ns.length - (ns.length - (ns.length - ks)) = ns.length - ks := by omega
  rw [harith]
  have hne0 : ¬ ((ns.take (ns.length - ks)).length = 0) := by
    rw [List.length_take]
    omega
  rw [if_neg hne0]
  rw [buildCompactionSummary_ne_nil _ (by
    intro hnil
    apply hne0
    rw [hnil]
    rfl)]

/-- C3 (amended): at or above the 80% usage threshold, when the history has
more non-system messages than the keep count N (N = 12 when usage strictly
exceeds 90% of the window, else 20), compaction retains all system
messages, keeps exactly the N most recent non-system messages, replaces all
older non-system messages with one synthetic system message holding a
header and one clipped digest line per dropped message, and never grows the
history. -/
theorem compaction_amended (lp w : Nat) (h : List ChatMessage)
    (h80 : 4 * w ≤ 5 * lp)
    (hdrop : keepCountOf lp w < (h.filter (fun m => !m.isSystem)).length) :
    pruneHistory lp w h
      = h.filter (fun m => m.isSystem)
        ++ [ChatMessage.system (String.intercalate "\n"
             ("Context compaction summary of earlier conversation (preserve these facts and decisions):"
               :: ((h.filter (fun m => !m.isSystem)).take
                     ((h.filter (fun m => !m.isSystem)).length - keepCountOf lp w)).map
                    summarizeMessage))]
        ++ (h.filter (fun m => !m.isSystem)).drop
             ((h.filter (fun m => !m.isSystem)).length - keepCountOf lp w) ∧
    (∀ m ∈ h, m.isSystem = true → m ∈ pruneHistory lp w h) ∧
    (pruneHistory lp w h).filter (fun m => !m.isSystem)
      = (h.filter (fun m => !m.isSystem)).drop
          ((h.filter (fun m => !m.isSystem)).length - keepCountOf lp w) ∧
    ((pruneHistory lp w h).filter (fun m => !m.isSystem)).length = keepCountOf lp w ∧
    (pruneHistory lp w h).length ≤ h.length := by
  have hshape := pruneHistory_drop_shape lp w h (by omega) hdrop
  set ns := h.filter (fun m => !m.isSystem) with hns
  set ks := keepCountOf lp w with hks
  have hkeep : (ns.drop (ns.length - ks)).filter (fun m => !m.isSystem)
      = ns.drop (ns.length - ks) := by
    rw [List.filter_eq_self]
    intro a ha
    have : a ∈ ns := List.mem_of_mem_drop ha
    rw [hns] at this
    simpa using (List.of_mem_filter this)
  have hsysnil : (h.filter (fun m => m.isSystem)).filter (fun m => !m.isSystem) = [] := by
    rw [List.filter_eq_nil_iff]
    intro a ha
    have := List.of_mem_filter ha
    simp [this]
  have hfilter : (pruneHistory lp w h).filter (fun m => !m.isSystem)
      = ns.drop (ns.length - ks) := by
    rw [hshape, List.filter_append, List.filter_append, hsysnil, hkeep,
      List.filter_cons]
    simp [ChatMessage.isSystem]
  refine ⟨hshape, ?_, hfilter, ?_, ?_⟩
  · intro m hm hsys
    rw [hshape]
    exact List.mem_append_left _ (List.mem_append_left _ (List.mem_filter.2 ⟨hm, hsys⟩))
  · rw [hfilter, List.length_drop]
    omega
  · rw [hshape]
    have hpart := length_filter_partition (fun m => m.isSystem) h
    have hsame : h.filter (fun a => !a.isSystem) = ns := rfl
    rw [hsame] at hpart
    simp only [List.length_append, List.length_cons, List.length_nil, List.length_drop]
    omega

theorem compaction_amended_witness :
    ((pruneHistory 950 1000 (List.replicate 14 (ChatMessage.user "m"))).filter
        (fun m => !m.isSystem)).length = keepCountOf 950 1000 ∧
    (pruneHistory 950 1000 (List.replicate 14 (ChatMessage.user "m"))).length
      ≤ (List.replicate 14 (ChatMessage.user "m")).length := by
  have h := compaction_amended 950 1000 (List.replicate 14 (ChatMessage.user "m"))
    (by omega) (by decide)
  exact ⟨h.2.2.2.1, h.2.2.2.2⟩

/-- C3 counterexample: at exactly 90% usage (latestPrompt 900 of window
1000) the claim mandates N = 12, but the source computes the keep count
with a strict comparison and keeps 20; on a history of 25 non-system
messages the compacted history retains 20 non-system messages, not 12. -/
theorem compaction_boundary_counterexample :
    10 * 900 ≥ 9 * 1000 ∧ 5 * 900 ≥ 4 * 1000 ∧
    specKeepCount 900 1000 = 12 ∧ keepCountOf 900 1000 = 20 ∧
    ((pruneHistory 900 1000 (List.replicate 25 (ChatMessage.user "m"))).filter
        (fun m => !m.isSystem)).length = 20 := by
  refine ⟨by omega, by omega, by decide, by decide, by decide⟩

/-- C4: compaction is the identity below the 80% threshold, and returns the
input list unchanged whenever no message would be dropped. -/
theorem compaction_identity (lp w : Nat) (h : List ChatMessage) :
    (5 * lp < 4 * w → pruneHistory lp w h = h) ∧
    ((h.filter (fun m => !m.isSystem)).length ≤ keepCountOf lp w →
      pruneHistory lp w h = h) := by
  constructor
  · intro hlt
    simp [pruneHistory, hlt]
  · intro hle
    by_cases hlt : 5 * lp < 4 * w
    · simp [pruneHistory, hlt]
    · unfold pruneHistory
      rw [if_neg hlt]
      dsimp only
      have h0 : (h.filter (fun m => !m.isSystem)).length - keepCountOf lp w = 0 := by omega
      rw [h0, List.drop_zero, Nat.sub_self, List.take_zero]
      simp

theorem compaction_identity_witness :
    pruneHistory 10 100 [ChatMessage.user "x"] = [ChatMessage.user "x"] ∧
    pruneHistory 100 100 [ChatMessage.user "x"] = [ChatMessage.user "x"] :=
  ⟨(compaction_identity 10 100 [ChatMessage.user "x"]).1 (by omega),
   (compaction_identity 100 100 [ChatMessage.user "x"]).2 (by decide)⟩

end AgentKit
